import Mathlib

/-!
Verification of the youtube_highlights repository
(`create_highlights.py` and `game_with_scores.py`).

Modelling conventions:
* Python floats are modelled as exact rationals (`ℚ`); Python `int(...)`
  is `pyInt`, truncation toward zero; Python `//` on integers is floor
  division (`Int.fdiv`).
* External effects (yt-dlp downloads, ffmpeg subprocesses, the
  filesystem) are modelled by boolean oracles, and the embedding records
  the observable behaviour: which external calls happen, which clips are
  produced, which failure message is printed, and the process exit status.
-/

namespace YH

/-- Python `int(q)` for a rational `q`: truncation toward zero. -/
def pyInt (q : ℚ) : Int := if 0 ≤ q then ⌊q⌋ else ⌈q⌉

theorem pyInt_of_nonneg {q : ℚ} (h : 0 ≤ q) : pyInt q = ⌊q⌋ := by
  simp [pyInt, h]

theorem pyInt_nonneg {q : ℚ} (h : 0 ≤ q) : 0 ≤ pyInt q := by
  rw [pyInt_of_nonneg h]; exact Int.floor_nonneg.mpr h

theorem pyInt_le {q : ℚ} (h : 0 ≤ q) : (pyInt q : ℚ) ≤ q := by
  rw [pyInt_of_nonneg h]; exact Int.floor_le q

theorem pyInt_intCast (n : Int) : pyInt (n : ℚ) = n := by
  by_cases h : (0 : ℚ) ≤ (n : ℚ) <;> simp [pyInt, h]

theorem pyInt_lt_of_lt {q : ℚ} {L : Int} (hL : 0 < L) (hq : q < (L : ℚ)) :
    pyInt q < L := by
  by_cases h : 0 ≤ q
  · rw [pyInt_of_nonneg h]
    exact Int.floor_lt.mpr hq
  · have hq0 : q ≤ 0 := le_of_not_le h
    calc pyInt q = ⌈q⌉ := by simp [pyInt, h]
    _ ≤ 0 := Int.ceil_le.mpr (by exact_mod_cast hq0)
    _ < L := hL

/-! ### Winner computation (`game_with_scores.py`, lines 98–110)

For each segment the script reads `scoreState = {t1, t2}` and assigns
`winner ∈ {0, 1, 2}` (0 = none) by:

    winner = 0
    if score['t1'] > prev_s1: winner = 1; prev_s1 = score['t1']
    elif score['t2'] > prev_s2: winner = 2; prev_s2 = score['t2']

with `prev_s1 = prev_s2 = 0` before the loop.  Scores are the
non-negative integers of the descriptor's `scoreState`. -/

structure ScoreState where
  t1 : Nat
  t2 : Nat
deriving DecidableEq

/-- The winner-assignment loop of `game_with_scores.py` (lines 98–110),
with the running pair `(prev_s1, prev_s2)` made explicit.  Note that the
`elif` branch is not reached when `t1` increased, and that only the
assigned winner's running value is updated. -/
def winnersAux : Nat → Nat → List ScoreState → List Nat
  | _, _, [] => []
  | p1, p2, s :: rest =>
    if p1 < s.t1 then 1 :: winnersAux s.t1 p2 rest
    else if p2 < s.t2 then 2 :: winnersAux p1 s.t2 rest
    else 0 :: winnersAux p1 p2 rest

/-- The derived `winner` field of every segment, in descriptor order. -/
def computeWinners (ss : List ScoreState) : List Nat := winnersAux 0 0 ss

/-- Written from claim C1's words, for comparison with `computeWinners`:
running maxima of both teams' scores seeded at 0, winner is the first
team whose score strictly increases relative to its running maximum, and
a segment in which both (or neither) team's score increases is `0`. -/
def claimWinnersAux : Nat → Nat → List ScoreState → List Nat
  | _, _, [] => []
  | m1, m2, s :: rest =>
    (if m1 < s.t1 ∧ m2 < s.t2 then 0
     else if m1 < s.t1 then 1
     else if m2 < s.t2 then 2
     else 0) :: claimWinnersAux (max m1 s.t1) (max m2 s.t2) rest

/-- Claim-side winner list per C1's words. -/
def claimWinners (ss : List ScoreState) : List Nat := claimWinnersAux 0 0 ss

/-- Written from the amended claim's words: a single forward pass with a
running value per team seeded at 0; the segment's winner is team1 if its
score strictly exceeds its running value (also when team2's does too),
else team2 if its score strictly exceeds its running value, else none;
only the assigned winner's running value is updated, to that team's
current score. -/
def amendedStep (st : Nat × Nat) (s : ScoreState) : (Nat × Nat) × Nat :=
  if st.1 < s.t1 then ((s.t1, st.2), 1)
  else if st.2 < s.t2 then ((st.1, s.t2), 2)
  else (st, 0)

/-- One fold step of the amended-claim pass, carrying the running pair
and the winner list produced so far. -/
def amendedFold (p : (Nat × Nat) × List Nat) (s : ScoreState) :
    (Nat × Nat) × List Nat :=
  let r := amendedStep p.1 s
  (r.1, p.2 ++ [r.2])

/-- Amended-claim winner list, as a left fold carrying `(run1, run2)`. -/
def amendedWinners (ss : List ScoreState) : List Nat :=
  (ss.foldl amendedFold ((0, 0), [])).2

theorem amendedWinners_foldl (ss : List ScoreState) :
    ∀ (p1 p2 : Nat) (acc : List Nat),
      (ss.foldl amendedFold ((p1, p2), acc)).2 = acc ++ winnersAux p1 p2 ss := by
  induction ss with
  | nil => intro p1 p2 acc; simp [winnersAux]
  | cons s rest ih =>
    intro p1 p2 acc
    rw [List.foldl_cons]
    by_cases h1 : p1 < s.t1
    · rw [show amendedFold ((p1, p2), acc) s = ((s.t1, p2), acc ++ [1]) from by
        simp [amendedFold, amendedStep, h1]]
      rw [ih s.t1 p2 (acc ++ [1])]
      simp [winnersAux, h1]
    · by_cases h2 : p2 < s.t2
      · rw [show amendedFold ((p1, p2), acc) s = ((p1, s.t2), acc ++ [2]) from by
          simp [amendedFold, amendedStep, h1, h2]]
        rw [ih p1 s.t2 (acc ++ [2])]
        simp [winnersAux, h1, h2]
      · rw [show amendedFold ((p1, p2), acc) s = ((p1, p2), acc ++ [0]) from by
          simp [amendedFold, amendedStep, h1, h2]]
        rw [ih p1 p2 (acc ++ [0])]
        simp [winnersAux, h1, h2]

/-! ### Segment aggregation (`create_highlights.py`, lines 39–64)

Each JSON file either fails `json.load` (modelled as `badJson`) or
yields metadata plus a `segments` array.  The per-file loop appends
`{'start': seg['start'], 'end': seg['end'], ...}` for each element
directly onto the global `all_segments` list; a missing `start` or
`end` raises `KeyError`, which the per-file `except` turns into a
"Skipping invalid file" warning — but the elements appended before the
offending one stay on the global list.  (The metadata fields `mode`,
`videoPath` and `videoTitle` are copied the same way as `videoId` and
play no role in any claim; only `videoId` is carried here.) -/

/-- One element of a descriptor file's `segments` array, before field
access: either timestamp may be absent. -/
structure RawSeg where
  segStart : Option ℚ
  segEnd : Option ℚ
deriving DecidableEq

/-- An aggregated segment record (`all_segments` element). -/
structure Segment where
  videoId : Option String
  segStart : ℚ
  segEnd : ℚ
deriving DecidableEq

/-- A successfully `json.load`-ed descriptor file. -/
structure FileData where
  videoId : Option String
  segments : List RawSeg
deriving DecidableEq

/-- A descriptor file as the aggregation loop sees it. -/
inductive DescriptorFile where
  | badJson
  | parsed (d : FileData)
deriving DecidableEq

/-- Conversion of one raw element, when both fields are present. -/
def toSeg (vid : Option String) (r : RawSeg) : Option Segment :=
  match r.segStart, r.segEnd with
  | some a, some b => some ⟨vid, a, b⟩
  | _, _ => none

/-- The per-file inner loop: elements are appended one at a time; the
first element with a missing `start` or `end` raises, aborting the rest
of the file but keeping what was already appended. -/
def collectSegs (vid : Option String) : List RawSeg → List Segment
  | [] => []
  | r :: rest =>
    match r.segStart, r.segEnd with
    | some a, some b => ⟨vid, a, b⟩ :: collectSegs vid rest
    | _, _ => []

/-- What one descriptor file contributes to `all_segments`. -/
def fileSegments : DescriptorFile → List Segment
  | .badJson => []
  | .parsed d => collectSegs d.videoId d.segments

/-- The aggregated `all_segments` list over the name-sorted file list. -/
def aggregate : List DescriptorFile → List Segment
  | [] => []
  | f :: fs => fileSegments f ++ aggregate fs

theorem aggregate_append (fs1 fs2 : List DescriptorFile) :
    aggregate (fs1 ++ fs2) = aggregate fs1 ++ aggregate fs2 := by
  induction fs1 with
  | nil => simp [aggregate]
  | cons f fs ih => simp [aggregate, ih]

theorem collectSegs_ok_head (vid : Option String) :
    ∀ (pre : List RawSeg),
      (∀ r ∈ pre, r.segStart.isSome ∧ r.segEnd.isSome) →
      ∀ (tail : List RawSeg),
        collectSegs vid (pre ++ tail) =
          pre.filterMap (toSeg vid) ++ collectSegs vid tail := by
  intro pre
  induction pre with
  | nil => intro _ tail; simp
  | cons r rest ih =>
    intro hok tail
    obtain ⟨hs, he⟩ := hok r (by simp)
    obtain ⟨a, ha⟩ := Option.isSome_iff_exists.mp hs
    obtain ⟨b, hb⟩ := Option.isSome_iff_exists.mp he
    have hrest : ∀ x ∈ rest, x.segStart.isSome ∧ x.segEnd.isSome := by
      intro x hx; exact hok x (by simp [hx])
    simp [collectSegs, toSeg, ha, hb, ih hrest tail]

/-! ### Run model of `create_highlights.py`

The observable behaviour of `main()` after the JSON files were located,
parameterised by the parsed file list, a per-segment success oracle
`clipOk` (download/extraction plus the per-segment ffmpeg call), and
whether the single stream-copy concatenation call succeeds.

Faithful points from the source:
* "No valid segments found." is printed and `main` returns when the
  aggregated list is empty (lines 62–64);
* "No clips were successfully generated." is printed when no segment
  produced a clip (lines 155–156);
* the concatenation command is built exactly once, with `-c copy`
  (lines 145–148); its failure is caught and printed as a merge error
  (lines 150–154) — there is no second, re-encoding invocation;
* `main()` returns `None` on every path and nothing calls `sys.exit`,
  so the interpreter's exit status is 0 on every run. -/

inductive ConcatMode where
  | streamCopy
  | reencode
deriving DecidableEq

inductive Failure where
  | noValidSegments
  | noClips
  | mergeError
deriving DecidableEq

structure RunResult where
  concatCalls : List ConcatMode
  failure : Option Failure
  exitCode : Nat
deriving DecidableEq

/-- Observable outcome of one `create_highlights.py` run. -/
def create_highlights_run (files : List DescriptorFile)
    (clipOk : Nat → Bool) (copyOk : Bool) : RunResult :=
  let segs := aggregate files
  if segs.isEmpty then ⟨[], some .noValidSegments, 0⟩
  else
    let clips := (List.range segs.length).filter clipOk
    if clips.isEmpty then ⟨[], some .noClips, 0⟩
    else if copyOk then ⟨[.streamCopy], none, 0⟩
    else ⟨[.streamCopy], some .mergeError, 0⟩

/-! ### Resolution probe (`game_with_scores.py`, lines 20–38)

`get_video_dimensions` runs ffprobe; the decoded, stripped stdout is
either absent (the subprocess raised) or a string.  An empty string, or
any output that does not parse as exactly two integers separated by
`x`, leads to the `(1920, 1080)` fallback — the function catches every
exception and always returns. -/

inductive ProbeResult where
  | err
  | out (s : List Char)
deriving DecidableEq

/-- Python `output.split('x')` over the stripped stdout characters. -/
def splitX : List Char → List (List Char)
  | [] => [[]]
  | c :: rest =>
    match splitX rest with
    | [] => [[]]
    | t :: ts => if c = 'x' then [] :: t :: ts else (c :: t) :: ts

/-- Accumulator pass of decimal parsing; a non-digit raises `ValueError`. -/
def parseNatAux : Nat → List Char → Option Nat
  | acc, [] => some acc
  | acc, c :: cs =>
    if c.isDigit then parseNatAux (acc * 10 + (c.toNat - 48)) cs else none

/-- Python `int(token)`: an optional sign followed by at least one digit
(the whitespace/underscore liberties of `int` never arise in ffprobe
output and are not modelled); anything else raises. -/
def pyParseInt : List Char → Option Int
  | [] => none
  | '-' :: rest =>
    match rest with
    | [] => none
    | _ => (parseNatAux 0 rest).map (fun m => -(m : Int))
  | cs => (parseNatAux 0 cs).map (fun m => (m : Int))

/-- Embedding of `get_video_dimensions`: an empty output, or any output
that is not exactly two integers separated by `x`, gives the fallback;
every exception is caught, so the function always returns. -/
def get_video_dimensions (p : ProbeResult) : Int × Int :=
  match p with
  | .err => (1920, 1080)
  | .out s =>
    if s = [] then (1920, 1080)
    else
      match (splitX s).mapM pyParseInt with
      | some [w, h] => (w, h)
      | _ => (1920, 1080)

/-! ### Per-segment processing loop of `game_with_scores.py` (lines 153–317)

For segment `i` the loop first checks whether
`processed_clips/clip_{i:03d}.mp4` already exists; if so it appends that
path to `downloaded_clips` and `continue`s — no download, no render.
Otherwise it downloads (yt-dlp) and renders (ffmpeg); an error in either
step is caught, prints a message, and produces no clip.  The filesystem
and the two external tools are boolean oracles; clips are identified by
their index. -/

structure Env where
  fileExists : Nat → Bool
  downloadOk : Nat → Bool
  renderOk : Nat → Bool

/-- External calls made while processing one segment. -/
inductive Event where
  | download (i : Nat)
  | render (i : Nat)
deriving DecidableEq

/-- Events performed and clip produced (if any) for segment `i`. -/
def processSegment (env : Env) (i : Nat) : List Event × Option Nat :=
  if env.fileExists i then ([], some i)
  else if env.downloadOk i then
    if env.renderOk i then ([.download i, .render i], some i)
    else ([.download i, .render i], none)
  else ([.download i], none)

/-- The phase-1 loop over segments `0, …, n-1`: the event trace and the
`downloaded_clips` list, both extended in loop order. -/
def runPhase1 (env : Env) (n : Nat) : List Event × List Nat :=
  (List.range n).foldl
    (fun acc i =>
      let r := processSegment env i
      (acc.1 ++ r.1, acc.2 ++ r.2.toList))
    ([], [])

theorem runPhase1_foldl (env : Env) :
    ∀ (l : List Nat) (a : List Event) (b : List Nat),
      l.foldl
        (fun acc i =>
          let r := processSegment env i
          (acc.1 ++ r.1, acc.2 ++ r.2.toList))
        (a, b) =
      (a ++ l.foldr (fun i r => (processSegment env i).1 ++ r) [],
       b ++ l.filterMap (fun i => (processSegment env i).2)) := by
  intro l
  induction l with
  | nil => intro a b; simp
  | cons i rest ih =>
    intro a b
    rw [List.foldl_cons, ih]
    simp [List.filterMap_cons]
    cases h : (processSegment env i).2 <;> simp [h]

/-! ### Overlay layout (`game_with_scores.py`, lines 184–299)

All quantities follow the source line by line; Python `int(...)` is
`pyInt` and `//` is `Int.fdiv`.  `ffmpeg` drawbox/drawtext filter
strings are modelled structurally: a `drawbox` carries the emitted
integer geometry and colour string (a drawbox without an `x` key
defaults to `x=0`); a `drawtext` carries the font file, text, font size
and the anchor expressions used by the source (right-aligned at an x,
centred in a box, or left-aligned at an x; the y expression is always
"centred in the score box"). -/

def sb_height (h : Int) : Int := pyInt ((h : ℚ) * 0.15)

def sb_y (h : Int) : Int := h - sb_height h

def accent_height (h : Int) : Int := max 2 (pyInt ((h : ℚ) * 0.006))

def box_height (h : Int) : Int := pyInt ((sb_height h : ℚ) * 0.5)

def box_width (h : Int) : Int := pyInt ((box_height h : ℚ) * 1.2)

def box_y (h : Int) : Int := sb_y h + Int.fdiv (sb_height h - box_height h) 2

def center_x (w : Int) : Int := Int.fdiv w 2

def box_t1_x (w h : Int) : Int := center_x w - box_width h

def box_t2_x (w : Int) : Int := center_x w

def font_score (h : Int) : Int := pyInt ((box_height h : ℚ) * 0.8)

def font_team (h : Int) : Int := pyInt ((sb_height h : ℚ) * 0.25)

def text_team_offset_x (h : Int) : Int := pyInt ((box_width h : ℚ) * 0.2)

def prog_margin_top (h : Int) : Int := pyInt ((h : ℚ) * 0.05)

def prog_available_h (h : Int) : Int :=
  h - prog_margin_top h - sb_height h - pyInt ((h : ℚ) * 0.02)

def prog_line_x (h : Int) : Int := pyInt ((h : ℚ) * 0.05) + 14

def prog_line_w (h : Int) : Int := max 2 (pyInt ((h : ℚ) * 0.003))

/-- `prog_slot_h` stays a Python float: `min(prog_available_h / total_segs,
vid_h * 0.05)`. -/
def prog_slot_h (h : Int) (n : Nat) : ℚ :=
  min ((prog_available_h h : ℚ) / (n : ℚ)) ((h : ℚ) * 0.05)

def prog_gap (h : Int) (n : Nat) : Int := max 1 (pyInt (prog_slot_h h n * 0.1))

/-- `prog_box_dim` also stays a float until emission. -/
def prog_box_dim (h : Int) (n : Nat) : ℚ :=
  prog_slot_h h n - (prog_gap h n : ℚ)

/-- Anchor of a drawtext x-expression. -/
inductive XAnchor where
  | rightOf (a : Int)
  | centerIn (x w : Int)
  | leftAt (a : Int)
deriving DecidableEq

/-- One entry of the `filters` list. -/
inductive Fltr where
  | drawbox (x y w h : Int) (color : String)
  | drawtext (fontfile text : String) (fontsize : Int)
      (xa : XAnchor) (boxY boxH : Int)
deriving DecidableEq

/-- The white vertical progression line (drawn first when enabled). -/
def progLine (h : Int) : Fltr :=
  .drawbox (prog_line_x h) (prog_margin_top h) (prog_line_w h)
    (prog_available_h h) "white@1"

/-- The square for past segment `k` with winner `wk ∈ {1, 2}`. -/
def progSquare (h : Int) (n : Nat) (k : Nat) (wk : Nat) : Fltr :=
  let y_pos := pyInt ((prog_margin_top h : ℚ) + (k : ℚ) * prog_slot_h h n)
  let dim := pyInt (prog_box_dim h n)
  if wk = 1 then
    .drawbox (pyInt ((prog_line_x h : ℚ) - (prog_gap h n : ℚ) - prog_box_dim h n))
      y_pos dim dim "red@0.8"
  else
    .drawbox (prog_line_x h + prog_line_w h + prog_gap h n)
      y_pos dim dim "blue@0.8"

/-- Progression filters for current segment `i` out of `n`, given the
precomputed winner list: the line, then one square per earlier-or-equal
index whose winner is non-zero (`if pt_winner == 0: continue`). -/
def progFilters (h : Int) (n : Nat) (winners : List Nat) (i : Nat) : List Fltr :=
  progLine h ::
    (List.range (i + 1)).filterMap (fun k =>
      let wk := winners.getD k 0
      if wk = 0 then none else some (progSquare h n k wk))

/-- Scoreboard filters (always emitted), in source order: background
band, accent stripe, team-1 score box, team-2 score box, team-1 name,
team-1 score, team-2 score, team-2 name. -/
def sbFilters (w h : Int) (s1 s2 : Nat) (t1n t2n fp : String) : List Fltr :=
  [ .drawbox 0 (sb_y h) w (sb_height h) "black@0.8"
  , .drawbox 0 (sb_y h) w (accent_height h) "orange@1"
  , .drawbox (box_t1_x w h) (box_y h) (box_width h) (box_height h) "red@0.8"
  , .drawbox (box_t2_x w) (box_y h) (box_width h) (box_height h) "blue@0.8"
  , .drawtext fp t1n (font_team h)
      (.rightOf (box_t1_x w h - text_team_offset_x h)) (box_y h) (box_height h)
  , .drawtext fp (toString s1) (font_score h)
      (.centerIn (box_t1_x w h) (box_width h)) (box_y h) (box_height h)
  , .drawtext fp (toString s2) (font_score h)
      (.centerIn (box_t2_x w) (box_width h)) (box_y h) (box_height h)
  , .drawtext fp t2n (font_team h)
      (.leftAt (box_t2_x w + box_width h + text_team_offset_x h)) (box_y h) (box_height h) ]

/-- The full filter list built for one segment. -/
def buildFilters (showProg : Bool) (w h : Int) (i n : Nat)
    (winners : List Nat) (s1 s2 : Nat) (t1n t2n fp : String) : List Fltr :=
  (if showProg then progFilters h n winners i else []) ++
    sbFilters w h s1 s2 t1n t2n fp

/-! ### Helper lemmas -/

theorem filterMap_guard {α β : Type} (p : α → Bool) (f : α → β)
    (g : α → Option β) (l : List α)
    (hg : ∀ a, g a = if p a then some (f a) else none) :
    l.filterMap g = (l.filter p).map f := by
  induction l with
  | nil => simp
  | cons a rest ih =>
    by_cases h : p a <;>
      simp [List.filterMap_cons, List.filter_cons, hg, h, ih]

theorem winnersAux_length : ∀ (ss : List ScoreState) (p1 p2 : Nat),
    (winnersAux p1 p2 ss).length = ss.length := by
  intro ss
  induction ss with
  | nil => intro p1 p2; simp [winnersAux]
  | cons s rest ih =>
    intro p1 p2
    by_cases h1 : p1 < s.t1
    · simp [winnersAux, h1, ih]
    · by_cases h2 : p2 < s.t2 <;> simp [winnersAux, h1, h2, ih]

theorem processSegment_clip (env : Env) (i : Nat) :
    (processSegment env i).2 =
      if env.fileExists i || (env.downloadOk i && env.renderOk i)
      then some i else none := by
  unfold processSegment
  by_cases h1 : env.fileExists i
  · simp [h1]
  · by_cases h2 : env.downloadOk i
    · by_cases h3 : env.renderOk i <;> simp [h1, h2, h3]
    · simp [h1, h2]

theorem processSegment_events_tag (env : Env) (i : Nat) (e : Event)
    (he : e ∈ (processSegment env i).1) :
    e = .download i ∨ e = .render i := by
  unfold processSegment at he
  by_cases h1 : env.fileExists i
  · simp [h1] at he
  · by_cases h2 : env.downloadOk i
    · by_cases h3 : env.renderOk i <;> simp [h1, h2, h3] at he <;> tauto
    · simp [h1, h2] at he; tauto

theorem processSegment_skip (env : Env) (i : Nat)
    (h : env.fileExists i = true) : processSegment env i = ([], some i) := by
  simp [processSegment, h]

theorem mem_eventsFold (env : Env) (e : Event) :
    ∀ (l : List Nat),
      e ∈ l.foldr (fun i r => (processSegment env i).1 ++ r) [] ↔
        ∃ i ∈ l, e ∈ (processSegment env i).1 := by
  intro l
  induction l with
  | nil => simp
  | cons i rest ih => simp [ih]

theorem runPhase1_events (env : Env) (n : Nat) :
    (runPhase1 env n).1 =
      (List.range n).foldr (fun i r => (processSegment env i).1 ++ r) [] := by
  unfold runPhase1
  rw [runPhase1_foldl]
  simp

theorem runPhase1_clips (env : Env) (n : Nat) :
    (runPhase1 env n).2 =
      (List.range n).filterMap (fun i => (processSegment env i).2) := by
  unfold runPhase1
  rw [runPhase1_foldl]
  simp

theorem sb_height_nonneg {h : Int} (hh : 0 ≤ h) : 0 ≤ sb_height h :=
  pyInt_nonneg (mul_nonneg (by exact_mod_cast hh) (by norm_num))

theorem box_height_nonneg {h : Int} (hh : 0 ≤ h) : 0 ≤ box_height h :=
  pyInt_nonneg (mul_nonneg (by exact_mod_cast sb_height_nonneg hh) (by norm_num))

theorem box_height_le {h : Int} (hh : 0 ≤ h) : box_height h ≤ sb_height h := by
  have h1 : (0 : ℚ) ≤ (sb_height h : ℚ) := by exact_mod_cast sb_height_nonneg hh
  have h2 : (box_height h : ℚ) ≤ (sb_height h : ℚ) := by
    calc (box_height h : ℚ) ≤ (sb_height h : ℚ) * 0.5 :=
      pyInt_le (mul_nonneg h1 (by norm_num))
    _ ≤ (sb_height h : ℚ) := by linarith
  exact_mod_cast h2

theorem prog_available_h_pos {h : Int} (hh : 0 < h) : 0 < prog_available_h h := by
  have hq : (0 : ℚ) < (h : ℚ) := by exact_mod_cast hh
  have e1 : (pyInt ((h : ℚ) * 0.05) : ℚ) ≤ (h : ℚ) * 0.05 :=
    pyInt_le (by positivity)
  have e2 : (pyInt ((h : ℚ) * 0.15) : ℚ) ≤ (h : ℚ) * 0.15 :=
    pyInt_le (by positivity)
  have e3 : (pyInt ((h : ℚ) * 0.02) : ℚ) ≤ (h : ℚ) * 0.02 :=
    pyInt_le (by positivity)
  have hfin : (0 : ℚ) < (prog_available_h h : ℚ) := by
    unfold prog_available_h prog_margin_top sb_height
    push_cast
    linarith
  exact_mod_cast hfin

theorem prog_slot_h_pos {h : Int} {n : Nat} (hh : 0 < h) (hn : 0 < n) :
    0 < prog_slot_h h n := by
  unfold prog_slot_h
  apply lt_min
  · apply div_pos
    · exact_mod_cast prog_available_h_pos hh
    · exact_mod_cast hn
  · have hq : (0 : ℚ) < (h : ℚ) := by exact_mod_cast hh
    nlinarith

theorem prog_line_x_pos {h : Int} (hh : 0 ≤ h) : 0 < prog_line_x h := by
  unfold prog_line_x
  have := pyInt_nonneg
    (q := (h : ℚ) * 0.05) (mul_nonneg (by exact_mod_cast hh) (by norm_num))
  omega

/-! ### Claim-side layout geometry

The following definitions are written from the words of claims C4 and
C5 (with the spec's "rounded to integer pixels" rule as truncation at
each computed value, which is what Python's `int()` does), clearly
separated from the source-side definitions above so that the claim
theorems compare the two. -/

/-- Claim-side (C4): available height `H − 0.05H − sbHeight − 0.02H`. -/
def c4Avail (h : Int) : Int :=
  h - pyInt ((h : ℚ) * 0.05) - sb_height h - pyInt ((h : ℚ) * 0.02)

/-- Claim-side (C4): the vertical marker line at horizontal offset
`0.05H + 14` px, starting at top margin `0.05H`, spanning the available
height. -/
def c4Line (h : Int) : Fltr :=
  .drawbox (pyInt ((h : ℚ) * 0.05) + 14) (pyInt ((h : ℚ) * 0.05))
    (max 2 (pyInt ((h : ℚ) * 0.003))) (c4Avail h) "white@1"

/-- Claim-side (C4): `slotHeight = min(availableHeight / N, 0.05H)`. -/
def c4Slot (h : Int) (n : Nat) : ℚ :=
  min ((c4Avail h : ℚ) / (n : ℚ)) ((h : ℚ) * 0.05)

/-- Claim-side (C4): the marker gap `max(1, 0.1·slotHeight)`. -/
def c4Gap (h : Int) (n : Nat) : Int := max 1 (pyInt (c4Slot h n * 0.1))

/-- Claim-side (C4): square side `slotHeight − max(1, 0.1·slotHeight)`. -/
def c4Side (h : Int) (n : Nat) : Int :=
  pyInt (c4Slot h n - (c4Gap h n : ℚ))

/-- Claim-side (C4): square vertical position `topMargin + k·slotHeight`. -/
def c4Y (h : Int) (n k : Nat) : Int :=
  pyInt ((pyInt ((h : ℚ) * 0.05) : ℚ) + (k : ℚ) * c4Slot h n)

/-- Claim-side (C4): the team-1 square abuts the line on its left, one
gap away. -/
def c4T1X (h : Int) (n : Nat) : Int :=
  pyInt (((pyInt ((h : ℚ) * 0.05) + 14 : Int) : ℚ) - (c4Gap h n : ℚ) -
    (c4Slot h n - (c4Gap h n : ℚ)))

/-- Claim-side (C5): scoreboard-band height `0.15H`. -/
def c5SbH (h : Int) : Int := pyInt ((h : ℚ) * 0.15)

/-- Claim-side (C5): band top edge `H − sbHeight`. -/
def c5BandY (h : Int) : Int := h - c5SbH h

/-- Claim-side (C5): the scoreboard band. -/
def c5Band (w h : Int) : Fltr := .drawbox 0 (c5BandY h) w (c5SbH h) "black@0.8"

/-- Claim-side (C5): accent stripe of height `max(2, 0.006H)` at the top
edge of the band. -/
def c5Accent (w h : Int) : Fltr :=
  .drawbox 0 (c5BandY h) w (max 2 (pyInt ((h : ℚ) * 0.006))) "orange@1"

/-- Claim-side (C5): score-box height `0.5·sbHeight`. -/
def c5BoxH (h : Int) : Int := pyInt ((c5SbH h : ℚ) * 0.5)

/-- Claim-side (C5): score-box width `1.2·boxHeight`. -/
def c5BoxW (h : Int) : Int := pyInt ((c5BoxH h : ℚ) * 1.2)

/-- Claim-side (C5): score-box top, vertically centred in the band. -/
def c5BoxY (h : Int) : Int := c5BandY h + Int.fdiv (c5SbH h - c5BoxH h) 2

/-- Claim-side (C5): team-1 score box, ending at the horizontal centre. -/
def c5Box1 (w h : Int) : Fltr :=
  .drawbox (Int.fdiv w 2 - c5BoxW h) (c5BoxY h) (c5BoxW h) (c5BoxH h) "red@0.8"

/-- Claim-side (C5): team-2 score box, starting at the horizontal centre. -/
def c5Box2 (w h : Int) : Fltr :=
  .drawbox (Int.fdiv w 2) (c5BoxY h) (c5BoxW h) (c5BoxH h) "blue@0.8"

/-! ### Claim theorems -/

/-- C1, counterexample: in the segment list `[{t1 := 1, t2 := 1}]` both
teams' scores strictly increase in the same segment, so the claim's tie
rule demands `pointWinner = none` (`claimWinners` is the claim's rule,
written from its words); the code assigns team1. -/
theorem c1_counterexample :
    computeWinners [⟨1, 1⟩] = [1] ∧ claimWinners [⟨1, 1⟩] = [0] ∧
      computeWinners [⟨1, 1⟩] ≠ claimWinners [⟨1, 1⟩] := by
  decide

/-- C1, amended: the derived `pointWinner` of each segment is computed in
a single forward pass in descriptor order carrying one running value per
team, both seeded at 0: the winner is team1 if its score strictly
exceeds its running value (a segment in which both teams' scores
increase resolves to team1, not to none), otherwise team2 if its score
strictly exceeds its running value, otherwise none; only the assigned
winner's running value is updated (to that team's current score), the
other team's running value is left unchanged.  `amendedWinners` is that
rule written as a fold; the pass assigns one winner per segment. -/
theorem c1_amended_winner_rule (ss : List ScoreState) :
    computeWinners ss = amendedWinners ss ∧
      (computeWinners ss).length = ss.length := by
  constructor
  · rw [computeWinners, amendedWinners, amendedWinners_foldl ss 0 0 []]
    simp
  · rw [computeWinners]
    exact winnersAux_length ss 0 0

/-- C10: in the descriptor segment list `[{t1 := 1, t2 := 1}, {t1 := 1, t2 := 1}]`
the second segment's scoreState is identical to the first's, yet the
computed winners are `[team1, team2]` — both non-none — because after
the first segment only team1's running value was raised to 1 while
team2's stayed 0. -/
theorem c10_winner_without_score_change :
    computeWinners [⟨1, 1⟩, ⟨1, 1⟩] = [1, 2] ∧
      [(⟨1, 1⟩ : ScoreState), ⟨1, 1⟩].getD 1 ⟨0, 0⟩ =
        [(⟨1, 1⟩ : ScoreState), ⟨1, 1⟩].getD 0 ⟨0, 0⟩ ∧
      (1 : Nat) ≠ 0 ∧ (2 : Nat) ≠ 0 := by
  decide

/-- C9: the resolution probe returns the probed `(width, height)` when
the probe ran and its output parses as exactly two integers separated by
`x`, and returns exactly `(1920, 1080)` when probing raised an error or
produced empty output; the function always returns (a probe failure
never fails the segment). -/
theorem c9_probe_fallback :
    get_video_dimensions .err = (1920, 1080) ∧
      get_video_dimensions (.out []) = (1920, 1080) ∧
      ∀ (s : List Char) (wd ht : Int),
        s ≠ [] →
        (splitX s).mapM pyParseInt = some [wd, ht] →
        get_video_dimensions (.out s) = (wd, ht) := by
  refine ⟨rfl, rfl, ?_⟩
  intro s wd ht hne hparse
  simp only [get_video_dimensions]
  rw [if_neg hne, hparse]

/-- C9 witness at the probe output `640x480`. -/
theorem c9_witness :
    (['6', '4', '0', 'x', '4', '8', '0'] : List Char) ≠ [] ∧
      (splitX ['6', '4', '0', 'x', '4', '8', '0']).mapM pyParseInt =
        some [640, 480] ∧
      get_video_dimensions (.out ['6', '4', '0', 'x', '4', '8', '0']) =
        (640, 480) :=
  ⟨by decide, by decide,
    c9_probe_fallback.2.2 ['6', '4', '0', 'x', '4', '8', '0'] 640 480
      (by decide) (by decide)⟩

/-- C6: if the expected final-output file for index `i` exists before
segment `i` is processed, neither a download nor a render happens for
segment `i`, segment `i` is nevertheless reused as a ProcessedClip, and
the clip list is exactly the successful indices in increasing index
order — hence a repeat run over an unchanged directory re-acquires and
re-renders nothing whose output exists. -/
theorem c6_resume_skip (env : Env) (n i : Nat) (hi : i < n)
    (hex : env.fileExists i = true) :
    Event.download i ∉ (runPhase1 env n).1 ∧
      Event.render i ∉ (runPhase1 env n).1 ∧
      (runPhase1 env n).2 =
        (List.range n).filter
          (fun j => env.fileExists j || (env.downloadOk j && env.renderOk j)) ∧
      i ∈ (runPhase1 env n).2 := by
  have hclips : (runPhase1 env n).2 =
      (List.range n).filter
        (fun j => env.fileExists j || (env.downloadOk j && env.renderOk j)) := by
    rw [runPhase1_clips]
    rw [filterMap_guard
      (fun j => env.fileExists j || (env.downloadOk j && env.renderOk j))
      (fun j => j) (fun j => (processSegment env j).2) (List.range n)
      (fun j => processSegment_clip env j)]
    simp
  have hnoev : ∀ e : Event, e ∈ (runPhase1 env n).1 →
      e ≠ Event.download i ∧ e ≠ Event.render i := by
    intro e he
    rw [runPhase1_events, mem_eventsFold] at he
    obtain ⟨j, _, hej⟩ := he
    by_cases hji : j = i
    · subst hji
      rw [processSegment_skip env j hex] at hej
      simp at hej
    · rcases processSegment_events_tag env j e hej with h | h <;>
        subst h <;> exact ⟨by simp [hji], by simp [hji]⟩
  refine ⟨?_, ?_, hclips, ?_⟩
  · intro hmem; exact (hnoev _ hmem).1 rfl
  · intro hmem; exact (hnoev _ hmem).2 rfl
  · rw [hclips]
    simp [List.mem_filter, List.mem_range, hi, hex]

/-- C6 witness: a two-segment run whose first output file already
exists. -/
theorem c6_witness :
    (0 : Nat) < 2 ∧
      (⟨fun j => j == 0, fun _ => true, fun _ => true⟩ : Env).fileExists 0 = true ∧
      (Event.download 0 ∉
          (runPhase1 ⟨fun j => j == 0, fun _ => true, fun _ => true⟩ 2).1 ∧
        Event.render 0 ∉
          (runPhase1 ⟨fun j => j == 0, fun _ => true, fun _ => true⟩ 2).1 ∧
        (runPhase1 ⟨fun j => j == 0, fun _ => true, fun _ => true⟩ 2).2 =
          (List.range 2).filter
            (fun j => (fun j => j == 0) j || (true && true)) ∧
        0 ∈ (runPhase1 ⟨fun j => j == 0, fun _ => true, fun _ => true⟩ 2).2) :=
  ⟨by decide, by decide,
    c6_resume_skip ⟨fun j => j == 0, fun _ => true, fun _ => true⟩ 2 0
      (by decide) (by decide)⟩

/-- Characterisation of the failure reported by a `create_highlights.py`
run and of its exit status; shared by several claims' proofs. -/
theorem run_characterization (files : List DescriptorFile)
    (clipOk : Nat → Bool) (copyOk : Bool) :
    (create_highlights_run files clipOk copyOk).exitCode = 0 ∧
      ((create_highlights_run files clipOk copyOk).failure =
          some Failure.noValidSegments ↔ aggregate files = []) ∧
      ((create_highlights_run files clipOk copyOk).failure =
          some Failure.noClips ↔ aggregate files ≠ [] ∧
            (List.range (aggregate files).length).filter clipOk = []) ∧
      ((create_highlights_run files clipOk copyOk).failure =
          some Failure.mergeError ↔ aggregate files ≠ [] ∧
            (List.range (aggregate files).length).filter clipOk ≠ [] ∧
            copyOk = false) ∧
      ((create_highlights_run files clipOk copyOk).concatCalls ≠ [] ↔
        aggregate files ≠ [] ∧
          (List.range (aggregate files).length).filter clipOk ≠ []) := by
  unfold create_highlights_run
  by_cases h1 : aggregate files = []
  · simp [List.isEmpty_iff, h1]
  · by_cases h2 : (List.range (aggregate files).length).filter clipOk = []
    · simp [List.isEmpty_iff, h1, h2]
    · cases copyOk <;> simp [List.isEmpty_iff, h1, h2]

/-- C2, counterexample: a run with one valid segment, a successful clip
and a failing stream-copy concatenation makes exactly one concatenation
call — stream-copy only, no re-encode retry ever happens (the claim
demands a second, re-encode invocation here). -/
theorem c2_counterexample :
    (create_highlights_run [.parsed ⟨none, [⟨some 0, some 1⟩]⟩]
        (fun _ => true) false).concatCalls = [ConcatMode.streamCopy] ∧
      ConcatMode.reencode ∉
        (create_highlights_run [.parsed ⟨none, [⟨some 0, some 1⟩]⟩]
          (fun _ => true) false).concatCalls ∧
      (create_highlights_run [.parsed ⟨none, [⟨some 0, some 1⟩]⟩]
          (fun _ => true) false).failure = some Failure.mergeError := by
  decide

/-- C2, amended: whenever the concatenation stage runs (valid segments
and at least one successful clip), it invokes the join exactly once, in
stream-copy mode; a failure of that single invocation is reported as a
merge error but is never retried in a re-encode mode, and it is not
fatal: the process still exits with status 0. -/
theorem c2_single_stream_copy_attempt (files : List DescriptorFile)
    (clipOk : Nat → Bool) (copyOk : Bool)
    (hsegs : aggregate files ≠ [])
    (hclips : (List.range (aggregate files).length).filter clipOk ≠ []) :
    (create_highlights_run files clipOk copyOk).concatCalls =
        [ConcatMode.streamCopy] ∧
      ConcatMode.reencode ∉
        (create_highlights_run files clipOk copyOk).concatCalls ∧
      ((create_highlights_run files clipOk copyOk).failure =
          some Failure.mergeError ↔ copyOk = false) ∧
      (create_highlights_run files clipOk copyOk).exitCode = 0 := by
  unfold create_highlights_run
  cases copyOk <;> simp [List.isEmpty_iff, hsegs, hclips]

/-- C2 witness: one valid segment, one successful clip, succeeding
stream-copy concatenation. -/
theorem c2_witness :
    aggregate [.parsed ⟨none, [⟨some 0, some 1⟩]⟩] ≠ [] ∧
      (List.range
          (aggregate [.parsed ⟨none, [⟨some 0, some 1⟩]⟩]).length).filter
        (fun _ => true) ≠ [] ∧
      ((create_highlights_run [.parsed ⟨none, [⟨some 0, some 1⟩]⟩]
            (fun _ => true) true).concatCalls = [ConcatMode.streamCopy] ∧
        ConcatMode.reencode ∉
          (create_highlights_run [.parsed ⟨none, [⟨some 0, some 1⟩]⟩]
            (fun _ => true) true).concatCalls ∧
        ((create_highlights_run [.parsed ⟨none, [⟨some 0, some 1⟩]⟩]
              (fun _ => true) true).failure = some Failure.mergeError ↔
          true = false) ∧
        (create_highlights_run [.parsed ⟨none, [⟨some 0, some 1⟩]⟩]
            (fun _ => true) true).exitCode = 0) :=
  ⟨by decide, by decide,
    c2_single_stream_copy_attempt [.parsed ⟨none, [⟨some 0, some 1⟩]⟩]
      (fun _ => true) true (by decide) (by decide)⟩

/-- C3, counterexample: a single descriptor file whose first segment
element is complete and whose second lacks `start` contributes its first
segment to the aggregated list — not "no segments at all" as the claim
states. -/
theorem c3_counterexample :
    aggregate [.parsed ⟨some "v", [⟨some 0, some 1⟩, ⟨none, some 2⟩]⟩] =
        [⟨some "v", 0, 1⟩] ∧
      aggregate [.parsed ⟨some "v", [⟨some 0, some 1⟩, ⟨none, some 2⟩]⟩] ≠
        [] := by
  decide

/-- C3, amended: a descriptor file containing a segment element missing
`start` or `end` contributes exactly the complete elements before the
first such offender (they were already appended to the global list when
the parse error hit; the offender and everything after it in that file
are dropped); the remaining files are still processed independently, and
aggregation terminates the run with "no valid segments" exactly when
zero valid segments result across all files. -/
theorem c3_valid_head_contribution (vid : Option String)
    (pre : List RawSeg) (bad : RawSeg) (rest : List RawSeg)
    (fs1 fs2 : List DescriptorFile) (clipOk : Nat → Bool) (copyOk : Bool)
    (hok : ∀ r ∈ pre, r.segStart.isSome ∧ r.segEnd.isSome)
    (hbad : bad.segStart = none ∨ bad.segEnd = none) :
    fileSegments (.parsed ⟨vid, pre ++ bad :: rest⟩) =
        pre.filterMap (toSeg vid) ∧
      aggregate (fs1 ++ fs2) = aggregate fs1 ++ aggregate fs2 ∧
      ((create_highlights_run fs1 clipOk copyOk).failure =
          some Failure.noValidSegments ↔ aggregate fs1 = []) := by
  refine ⟨?_, aggregate_append fs1 fs2,
    (run_characterization fs1 clipOk copyOk).2.1⟩
  show collectSegs vid (pre ++ bad :: rest) = pre.filterMap (toSeg vid)
  rw [collectSegs_ok_head vid pre hok (bad :: rest)]
  have hstop : collectSegs vid (bad :: rest) = [] := by
    rcases hbad with h | h
    · simp [collectSegs, h]
    · cases hs : bad.segStart <;> simp [collectSegs, h, hs]
  rw [hstop, List.append_nil]

/-- C3 witness: one good element before a `start`-less element, one
aggregated file. -/
theorem c3_witness :
    (∀ r ∈ [(⟨some 0, some 1⟩ : RawSeg)],
        r.segStart.isSome ∧ r.segEnd.isSome) ∧
      ((⟨none, some 2⟩ : RawSeg).segStart = none ∨
        (⟨none, some 2⟩ : RawSeg).segEnd = none) ∧
      (fileSegments
          (.parsed ⟨some "v", [⟨some 0, some 1⟩] ++ ⟨none, some 2⟩ :: []⟩) =
          [(⟨some 0, some 1⟩ : RawSeg)].filterMap (toSeg (some "v")) ∧
        aggregate
            ([.parsed ⟨some "v", [⟨some 0, some 1⟩]⟩] ++ []) =
          aggregate [.parsed ⟨some "v", [⟨some 0, some 1⟩]⟩] ++ aggregate [] ∧
        ((create_highlights_run [.parsed ⟨some "v", [⟨some 0, some 1⟩]⟩]
              (fun _ => true) true).failure = some Failure.noValidSegments ↔
          aggregate [.parsed ⟨some "v", [⟨some 0, some 1⟩]⟩] = [])) :=
  ⟨by decide, by decide,
    c3_valid_head_contribution (some "v") [⟨some 0, some 1⟩] ⟨none, some 2⟩ []
      [.parsed ⟨some "v", [⟨some 0, some 1⟩]⟩] [] (fun _ => true) true
      (by decide) (by decide)⟩

/-- C7, counterexample: a run over one parsable descriptor file with
zero segments hits the fatal "no valid segments" condition, prints its
failure summary, and still exits with status 0 — not non-zero as the
claim states (`main()` returns `None` on every path and `sys.exit` is
never called). -/
theorem c7_counterexample :
    ((create_highlights_run [.parsed ⟨none, []⟩] (fun _ => true)
          true).failure).isSome = true ∧
      (create_highlights_run [.parsed ⟨none, []⟩] (fun _ => true)
          true).exitCode = 0 := by
  decide

/-- C7, amended: whenever a fatal condition occurs — no valid segments,
zero successful clips, or failure of the single concatenation attempt —
the process prints the corresponding failure summary, but every run,
fatal or not, exits with status 0; the three failure reports occur
exactly under their respective conditions. -/
theorem c7_exit_code_always_zero (files : List DescriptorFile)
    (clipOk : Nat → Bool) (copyOk : Bool) :
    (create_highlights_run files clipOk copyOk).exitCode = 0 ∧
      ((create_highlights_run files clipOk copyOk).failure =
          some Failure.noValidSegments ↔ aggregate files = []) ∧
      ((create_highlights_run files clipOk copyOk).failure =
          some Failure.noClips ↔ aggregate files ≠ [] ∧
            (List.range (aggregate files).length).filter clipOk = []) ∧
      ((create_highlights_run files clipOk copyOk).failure =
          some Failure.mergeError ↔ aggregate files ≠ [] ∧
            (List.range (aggregate files).length).filter clipOk ≠ [] ∧
            copyOk = false) := by
  obtain ⟨h0, h1, h2, h3, _⟩ := run_characterization files clipOk copyOk
  exact ⟨h0, h1, h2, h3⟩

/-- C8, counterexample: a parsed segment with `end = start = 5` is not
rejected — it appears in the aggregated list handed to the downstream
stages. -/
theorem c8_counterexample :
    (Segment.mk (some "v") 5 5).segEnd ≤ (Segment.mk (some "v") 5 5).segStart ∧
      Segment.mk (some "v") 5 5 ∈
        aggregate [.parsed ⟨some "v", [⟨some 5, some 5⟩]⟩] := by
  decide

/-- C8, amended: no `end > start` validation exists at SegmentRecord
construction: every parsed segment element carrying both `start` and
`end` appears in the aggregated segment list, for any relative order of
the two timestamps (including `end ≤ start`). -/
theorem c8_no_boundary_rejection (vid : Option String) (a b : ℚ)
    (pre : List RawSeg) (fs1 fs2 : List DescriptorFile)
    (hok : ∀ r ∈ pre, r.segStart.isSome ∧ r.segEnd.isSome) :
    Segment.mk vid a b ∈
      aggregate (fs1 ++ .parsed ⟨vid, pre ++ [⟨some a, some b⟩]⟩ :: fs2) := by
  rw [aggregate_append]
  have hfile : fileSegments (.parsed ⟨vid, pre ++ [⟨some a, some b⟩]⟩) =
      pre.filterMap (toSeg vid) ++ [Segment.mk vid a b] := by
    show collectSegs vid (pre ++ [⟨some a, some b⟩]) = _
    rw [collectSegs_ok_head vid pre hok [⟨some a, some b⟩]]
    simp [collectSegs]
  simp [aggregate, hfile]

/-- C8 witness: a segment with `end = 3 < 5 = start` still reaches the
aggregated list. -/
theorem c8_witness :
    (∀ r ∈ ([] : List RawSeg), r.segStart.isSome ∧ r.segEnd.isSome) ∧
      Segment.mk none 5 3 ∈
        aggregate ([] ++ .parsed ⟨none, [] ++ [⟨some 5, some 3⟩]⟩ :: []) :=
  ⟨by simp,
    c8_no_boundary_rejection none 5 3 [] [] [] (by simp)⟩

/-- C4: with progression display enabled, the emitted filter list starts
with the vertical marker line at horizontal offset `0.05H + 14` px and
top margin `0.05H` spanning the available height, followed by exactly
one square per segment `k ≤ i` whose winner is non-none (in index
order), and then the scoreboard filters; every team-1 square has side
`slotHeight − max(1, 0.1·slotHeight)`, sits at vertical position
`topMargin + k·slotHeight`, and lies strictly left of the line in the
fixed colour red, while every team-2 square (same side and vertical
rule) starts strictly right of the line in the distinct fixed colour
blue, where `slotHeight = min(availableHeight/N, 0.05H)` — all values
truncated to integer pixels at emission. -/
theorem c4_progression_layout (w h : Int) (i n : Nat) (winners : List Nat)
    (s1 s2 : Nat) (t1n t2n fp : String) (hh : 0 < h) (hn : 0 < n) :
    buildFilters true w h i n winners s1 s2 t1n t2n fp =
        (c4Line h ::
          ((List.range (i + 1)).filter (fun k => winners.getD k 0 != 0)).map
            (fun k => progSquare h n k (winners.getD k 0))) ++
          sbFilters w h s1 s2 t1n t2n fp ∧
      (∀ k : Nat, progSquare h n k 1 =
        .drawbox (c4T1X h n) (c4Y h n k) (c4Side h n) (c4Side h n) "red@0.8") ∧
      (∀ k : Nat, progSquare h n k 2 =
        .drawbox (prog_line_x h + prog_line_w h + prog_gap h n) (c4Y h n k)
          (c4Side h n) (c4Side h n) "blue@0.8") ∧
      c4T1X h n < prog_line_x h ∧
      prog_line_x h < prog_line_x h + prog_line_w h + prog_gap h n ∧
      ("red@0.8" : String) ≠ "blue@0.8" := by
  have hg : ∀ a : Nat,
      (fun k => (fun wk => if wk = 0 then none
          else some (progSquare h n k wk)) (winners.getD k 0)) a =
        if winners.getD a 0 != 0 then
          some (progSquare h n a (winners.getD a 0)) else none := by
    intro a
    by_cases hz : winners.getD a 0 = 0 <;> simp [hz]
  refine ⟨?_, fun k => rfl, fun k => rfl, ?_, ?_, by decide⟩
  · show progFilters h n winners i ++ sbFilters w h s1 s2 t1n t2n fp = _
    unfold progFilters
    rw [filterMap_guard (fun k => winners.getD k 0 != 0)
      (fun k => progSquare h n k (winners.getD k 0)) _ (List.range (i + 1)) hg]
    rfl
  · show pyInt ((prog_line_x h : ℚ) - (prog_gap h n : ℚ) - prog_box_dim h n) <
      prog_line_x h
    have hslot : (0 : ℚ) < prog_slot_h h n := prog_slot_h_pos hh hn
    have hlx : 0 < prog_line_x h := prog_line_x_pos (le_of_lt hh)
    apply pyInt_lt_of_lt hlx
    have harg : (prog_line_x h : ℚ) - (prog_gap h n : ℚ) - prog_box_dim h n =
        (prog_line_x h : ℚ) - prog_slot_h h n := by
      unfold prog_box_dim
      ring
    rw [harg]
    linarith
  · have h2 : 2 ≤ prog_line_w h := le_max_left _ _
    have h3 : 1 ≤ prog_gap h n := le_max_left _ _
    omega

/-- C5: the scoreboard emission contains the band of height `0.15H` with
top edge at `H − sbHeight` (so the band ends exactly at the bottom of
the frame), the accent stripe of height `max(2, 0.006H)` at the band's
top edge, and the two score boxes of height `0.5·sbHeight` and width
`1.2·boxHeight`, team1's ending exactly at the horizontal centre and
team2's starting exactly there (touching), both vertically centred in
the band to within the one-pixel floor of integer centring — every
emitted value an integer pixel count. -/
theorem c5_scoreboard_layout (w h : Int) (s1 s2 : Nat) (t1n t2n fp : String)
    (hh : 0 < h) :
    c5Band w h ∈ sbFilters w h s1 s2 t1n t2n fp ∧
      c5Accent w h ∈ sbFilters w h s1 s2 t1n t2n fp ∧
      c5Box1 w h ∈ sbFilters w h s1 s2 t1n t2n fp ∧
      c5Box2 w h ∈ sbFilters w h s1 s2 t1n t2n fp ∧
      c5BandY h + c5SbH h = h ∧
      (Int.fdiv w 2 - c5BoxW h) + c5BoxW h = Int.fdiv w 2 ∧
      0 ≤ c5BoxY h - c5BandY h ∧
      c5BoxY h - c5BandY h ≤ (c5BandY h + c5SbH h) - (c5BoxY h + c5BoxH h) ∧
      (c5BandY h + c5SbH h) - (c5BoxY h + c5BoxH h) - (c5BoxY h - c5BandY h) ≤ 1 := by
  have hb0 : 0 ≤ box_height h := box_height_nonneg (le_of_lt hh)
  have hbl : box_height h ≤ sb_height h := box_height_le (le_of_lt hh)
  have hb0c : 0 ≤ c5BoxH h := hb0
  have hblc : c5BoxH h ≤ c5SbH h := hbl
  have hd : Int.fdiv (c5SbH h - c5BoxH h) 2 = (c5SbH h - c5BoxH h) / 2 :=
    Int.fdiv_eq_ediv _ (by norm_num)
  refine ⟨List.mem_cons_self _ _,
    List.mem_cons_of_mem _ (List.mem_cons_self _ _),
    List.mem_cons_of_mem _ (List.mem_cons_of_mem _ (List.mem_cons_self _ _)),
    List.mem_cons_of_mem _ (List.mem_cons_of_mem _
      (List.mem_cons_of_mem _ (List.mem_cons_self _ _))),
    ?_, ?_, ?_, ?_, ?_⟩
  · unfold c5BandY; ring
  · ring
  · simp only [c5BoxY, hd]; omega
  · simp only [c5BoxY, hd]; omega
  · simp only [c5BoxY, hd]; omega

/-- C4 witness: the 1920×1080 frame, second segment of two, winner
history `[team1, team2]`. -/
theorem c4_witness :
    (0 : Int) < 1080 ∧ (0 : Nat) < 2 ∧
      (buildFilters true 1920 1080 1 2 [1, 2] 1 0 "A" "B" "f" =
          (c4Line 1080 ::
            ((List.range (1 + 1)).filter (fun k => [1, 2].getD k 0 != 0)).map
              (fun k => progSquare 1080 2 k ([1, 2].getD k 0))) ++
            sbFilters 1920 1080 1 0 "A" "B" "f" ∧
        (∀ k : Nat, progSquare 1080 2 k 1 =
          .drawbox (c4T1X 1080 2) (c4Y 1080 2 k) (c4Side 1080 2)
            (c4Side 1080 2) "red@0.8") ∧
        (∀ k : Nat, progSquare 1080 2 k 2 =
          .drawbox (prog_line_x 1080 + prog_line_w 1080 + prog_gap 1080 2)
            (c4Y 1080 2 k) (c4Side 1080 2) (c4Side 1080 2) "blue@0.8") ∧
        c4T1X 1080 2 < prog_line_x 1080 ∧
        prog_line_x 1080 < prog_line_x 1080 + prog_line_w 1080 + prog_gap 1080 2 ∧
        ("red@0.8" : String) ≠ "blue@0.8") :=
  ⟨by decide, by decide,
    c4_progression_layout 1920 1080 1 2 [1, 2] 1 0 "A" "B" "f"
      (by decide) (by decide)⟩

/-- C5 witness: the 1920×1080 frame with score 2–3. -/
theorem c5_witness :
    (0 : Int) < 1080 ∧
      (c5Band 1920 1080 ∈ sbFilters 1920 1080 2 3 "A" "B" "f" ∧
        c5Accent 1920 1080 ∈ sbFilters 1920 1080 2 3 "A" "B" "f" ∧
        c5Box1 1920 1080 ∈ sbFilters 1920 1080 2 3 "A" "B" "f" ∧
        c5Box2 1920 1080 ∈ sbFilters 1920 1080 2 3 "A" "B" "f" ∧
        c5BandY 1080 + c5SbH 1080 = 1080 ∧
        (Int.fdiv 1920 2 - c5BoxW 1080) + c5BoxW 1080 = Int.fdiv 1920 2 ∧
        0 ≤ c5BoxY 1080 - c5BandY 1080 ∧
        c5BoxY 1080 - c5BandY 1080 ≤
          (c5BandY 1080 + c5SbH 1080) - (c5BoxY 1080 + c5BoxH 1080) ∧
        (c5BandY 1080 + c5SbH 1080) - (c5BoxY 1080 + c5BoxH 1080) -
          (c5BoxY 1080 - c5BandY 1080) ≤ 1) :=
  ⟨by decide, c5_scoreboard_layout 1920 1080 2 3 "A" "B" "f" (by decide)⟩

end YH
